import Mathlib

/-!
Shallow embedding of the component lifecycle registry of the Prime-security
repository (class `ModuleRegistry` in `src/CONTRIBUTING.md`, lines 250-520).

Modelling conventions:
* The JavaScript `Map` (which iterates in insertion order) becomes an
  association list `List (String × ModuleEntry)`; `register` appends, and
  lookups take the first binding.
* The optional asynchronous callbacks `init` / `start` / `stop` / `destroy`
  are modelled by their observable outcome: `none` when the field is absent,
  `some (.ok ())` when the callback resolves, `some (.error e)` when it
  throws/rejects the (opaque, here `Nat`-coded) error `e`.  Because the
  registry drives callbacks strictly sequentially, this captures everything
  the lifecycle operations can observe.
* A thrown exception becomes `Except.error`; the registry operations that
  mutate state return an `Outcome` bundling the result, the registry after
  the call, and the ordered trace of callback invocations (used to state
  ordering claims).
* The source distinguishes its error kinds only through `Error` messages;
  each distinct `throw` site becomes one constructor of `RegError`, and
  `RegError.message` reproduces the exact source message.  The catch blocks
  of `initialize` / `start` / `stop` re-throw the caught callback error
  unchanged (`throw error`), which is embedded as `RegError.external e`
  carrying the raw payload.
* The recursive `visit` of `resolveDependencyOrder` is made total with a
  fuel parameter; `RegError.fuelExhausted` marks fuel running out, and the
  development proves it never occurs at the fuel the entry point supplies.
-/

deriving instance DecidableEq for Except

namespace Reg

inductive ModuleState where
  | uninitialized
  | initializing
  | initialized
  | starting
  | running
  | stopping
  | stopped
  | error
deriving DecidableEq

/-- Observable outcome of an optional asynchronous callback: absent,
resolves, or rejects with an opaque error payload. -/
abbrev Callback := Option (Except Nat Unit)

/-- Embedding of the `Module` interface (`name`, `version`, optional
`dependencies` and the four optional callbacks). -/
structure Module where
  name : String
  version : String
  dependencies : Option (List String)
  init : Callback
  start : Callback
  stop : Callback
  destroy : Callback
deriving DecidableEq

/-- Dependency list with `undefined` read as the empty list, matching the
`if (module.dependencies)` guards in the source. -/
def Module.deps (m : Module) : List String := m.dependencies.getD []

/-- Embedding of the `ModuleEntry` interface: the wrapped module, its
current state and the last recorded error. -/
structure ModuleEntry where
  module : Module
  state : ModuleState
  error : Option Nat
deriving DecidableEq

/-- One constructor per distinct `throw` site of the source, plus
`external` for a re-thrown callback error and `fuelExhausted` for the fuel
artefact of the embedding of the recursive `visit`. -/
inductive RegError where
  | duplicateName (name : String)
  | notFound (name : String)
  | circular (name : String)
  | missingDeps (name : String) (missing : List String)
  | depNotReady (name : String) (dep : String)
  | invalidState (name : String)
  | external (e : Nat)
  | fuelExhausted
deriving DecidableEq

/-- Exact message text of each `throw new Error(...)` site in the source
(`external` re-throws a foreign error object, so it has no fixed text). -/
def RegError.message : RegError → Option String
  | .duplicateName n => some s!"Module {n} is already registered"
  | .notFound n => some s!"Module {n} not found"
  | .circular n => some s!"Circular dependency detected involving module: {n}"
  | .missingDeps n ms =>
      some (s!"Module {n} has missing dependencies: " ++ String.intercalate ", " ms)
  | .depNotReady n d =>
      some s!"Module {n} cannot be initialized: dependency {d} is not initialized"
  | .invalidState n => some s!"Module {n} must be initialized before starting"
  | .external _ => none
  | .fuelExhausted => none

/-- Embedding of the `ModuleRegistry` fields: the insertion-ordered module
map and the cached resolved order `startOrder`. -/
structure ModuleRegistry where
  modules : List (String × ModuleEntry)
  startOrder : List String
deriving DecidableEq

/-- A freshly constructed registry (`new ModuleRegistry()`). -/
def ModuleRegistry.empty : ModuleRegistry := ⟨[], []⟩

/-- Lookup in the module map (`this.modules.get(name)`). -/
def ModuleRegistry.lookup (r : ModuleRegistry) (name : String) : Option ModuleEntry :=
  List.lookup name r.modules

/-- Registered names in insertion order (`this.modules.keys()`). -/
def ModuleRegistry.regNames (r : ModuleRegistry) : List String :=
  r.modules.map Prod.fst

/-- The name is a key of the module map (`this.modules.has(name)`). -/
def ModuleRegistry.registered (r : ModuleRegistry) (name : String) : Prop :=
  (r.lookup name).isSome = true

instance (r : ModuleRegistry) (name : String) : Decidable (r.registered name) := by
  unfold ModuleRegistry.registered; infer_instance

/-- Replacement of the entry bound to an existing key, in place
(`Map.set` on a present key keeps the iteration position). -/
def ModuleRegistry.setEntry (r : ModuleRegistry) (name : String) (e : ModuleEntry) :
    ModuleRegistry :=
  { r with modules := r.modules.map (fun p => if p.1 = name then (p.1, e) else p) }

/-- Embedding of `register`: reject a duplicate name, otherwise append a
fresh UNINITIALIZED entry. -/
def ModuleRegistry.register (r : ModuleRegistry) (m : Module) :
    Except RegError ModuleRegistry :=
  if (r.lookup m.name).isSome then .error (.duplicateName m.name)
  else .ok { r with
    modules := r.modules ++ [(m.name, ⟨m, ModuleState.uninitialized, none⟩)] }

/-- Embedding of `get`. -/
def ModuleRegistry.get (r : ModuleRegistry) (name : String) : Option Module :=
  (r.lookup name).map ModuleEntry.module

/-- Embedding of `getState`. -/
def ModuleRegistry.getState (r : ModuleRegistry) (name : String) : Option ModuleState :=
  (r.lookup name).map ModuleEntry.state

/-- Embedding of `list`: `{name, version, state}` snapshots in insertion
order. -/
def ModuleRegistry.list (r : ModuleRegistry) : List (String × String × ModuleState) :=
  r.modules.map (fun p => (p.1, p.2.module.version, p.2.state))

/-- Embedding of the private `checkDependencies`: the declared dependency
names that are not registered, in declaration order. -/
def ModuleRegistry.checkDependencies (r : ModuleRegistry) (m : Module) : List String :=
  m.deps.filter (fun d => (r.lookup d).isNone)

/-- Dependency list of a registered name (empty for unknown names); used
only to state graph properties. -/
def ModuleRegistry.depsOfName (r : ModuleRegistry) (n : String) : List String :=
  match r.lookup n with
  | some e => e.module.deps
  | none => []

/-- State of the depth-first traversal of `resolveDependencyOrder`: the
`visiting` stack (most recent first) and the emitted `order`.  The source
also keeps a `visited` set, but it always holds exactly the elements of
`order` (both are extended in the same statement), so the embedding reuses
`order` for the membership test. -/
structure VisitState where
  visiting : List String
  order : List String
deriving DecidableEq

/-- The `for (const dep of ...)` loop around the recursive `visit`:
thread the traversal state through `next` over the list, propagating the
first thrown error. -/
def visitFold (next : VisitState → String → Except RegError VisitState) :
    VisitState → List String → Except RegError VisitState
  | s, [] => .ok s
  | s, d :: ds =>
    match next s d with
    | .error e => .error e
    | .ok s' => visitFold next s' ds

/-- Embedding of the recursive `visit` closure of `resolveDependencyOrder`,
made total by fuel (one unit per nesting level). -/
def ModuleRegistry.visit (r : ModuleRegistry) :
    Nat → VisitState → String → Except RegError VisitState
  | 0, _, _ => .error .fuelExhausted
  | fuel + 1, s, name =>
    if name ∈ s.order then .ok s
    else if name ∈ s.visiting then .error (.circular name)
    else
      match r.lookup name with
      | none => .ok s
      | some entry =>
        match visitFold (r.visit fuel) ⟨name :: s.visiting, s.order⟩ entry.module.deps with
        | .error e => .error e
        | .ok s' => .ok ⟨s'.visiting.erase name, s'.order ++ [name]⟩

/-- Embedding of the private `resolveDependencyOrder`: run `visit` from
every registered name in insertion order.  The nesting depth of `visit` is
bounded by the number of registered modules plus one, which is supplied as
fuel and proven sufficient below. -/
def ModuleRegistry.resolveDependencyOrder (r : ModuleRegistry) :
    Except RegError (List String) :=
  (visitFold (r.visit (r.modules.length + 1)) ⟨[], []⟩ r.regNames).map VisitState.order

/-- Callback-invocation events, in order, as observed by the caller. -/
inductive Event where
  | initCall (name : String)
  | startCall (name : String)
  | stopCall (name : String)
deriving DecidableEq

/-- Result of a lifecycle operation: the thrown-or-returned result, the
registry after the call, and the trace of callback invocations. -/
structure Outcome where
  result : Except RegError Unit
  registry : ModuleRegistry
  events : List Event
deriving DecidableEq

/-- A dependency name that blocks initialization: not registered, or still
UNINITIALIZED (the `!depEntry || depEntry.state === UNINITIALIZED` test of
the source). -/
def ModuleRegistry.unready (r : ModuleRegistry) (d : String) : Bool :=
  match r.lookup d with
  | none => true
  | some de => de.state = ModuleState.uninitialized

/-- Embedding of `initialize` (named `initModule` here).  Mirrors the
source: unknown name throws NotFound; a state other than UNINITIALIZED is
an idempotent no-op; unregistered dependencies throw MissingDependency;
an UNINITIALIZED dependency throws DependencyNotReady; then the state is
set to INITIALIZING, the `init` callback (if any) runs, and the entry ends
INITIALIZED on success or ERROR (with the raw error recorded and
re-thrown) on failure. -/
def ModuleRegistry.initModule (r : ModuleRegistry) (name : String) : Outcome :=
  match r.lookup name with
  | none => ⟨.error (.notFound name), r, []⟩
  | some entry =>
    if entry.state ≠ ModuleState.uninitialized then ⟨.ok (), r, []⟩
    else
      let missing := r.checkDependencies entry.module
      if missing ≠ [] then ⟨.error (.missingDeps name missing), r, []⟩
      else
        match entry.module.deps.find? r.unready with
        | some d => ⟨.error (.depNotReady name d), r, []⟩
        | none =>
          let r1 := r.setEntry name { entry with state := ModuleState.initializing }
          match entry.module.init with
          | none =>
            ⟨.ok (), r1.setEntry name { entry with state := ModuleState.initialized }, []⟩
          | some (.ok _) =>
            ⟨.ok (), r1.setEntry name { entry with state := ModuleState.initialized },
              [.initCall name]⟩
          | some (.error e) =>
            ⟨.error (.external e),
              r1.setEntry name { entry with state := ModuleState.error, error := some e },
              [.initCall name]⟩

/-- Embedding of `start`: RUNNING is a no-op; only INITIALIZED or STOPPED
may proceed; then STARTING, the `start` callback, and RUNNING or ERROR. -/
def ModuleRegistry.start (r : ModuleRegistry) (name : String) : Outcome :=
  match r.lookup name with
  | none => ⟨.error (.notFound name), r, []⟩
  | some entry =>
    if entry.state = ModuleState.running then ⟨.ok (), r, []⟩
    else if entry.state ≠ ModuleState.initialized ∧ entry.state ≠ ModuleState.stopped then
      ⟨.error (.invalidState name), r, []⟩
    else
      let r1 := r.setEntry name { entry with state := ModuleState.starting }
      match entry.module.start with
      | none =>
        ⟨.ok (), r1.setEntry name { entry with state := ModuleState.running }, []⟩
      | some (.ok _) =>
        ⟨.ok (), r1.setEntry name { entry with state := ModuleState.running },
          [.startCall name]⟩
      | some (.error e) =>
        ⟨.error (.external e),
          r1.setEntry name { entry with state := ModuleState.error, error := some e },
          [.startCall name]⟩

/-- Embedding of `stop`: UNINITIALIZED, STOPPED and STOPPING are no-ops;
every other state (ERROR included) proceeds to STOPPING, the `stop`
callback, and STOPPED or ERROR. -/
def ModuleRegistry.stop (r : ModuleRegistry) (name : String) : Outcome :=
  match r.lookup name with
  | none => ⟨.error (.notFound name), r, []⟩
  | some entry =>
    if entry.state = ModuleState.uninitialized ∨ entry.state = ModuleState.stopped ∨
        entry.state = ModuleState.stopping then ⟨.ok (), r, []⟩
    else
      let r1 := r.setEntry name { entry with state := ModuleState.stopping }
      match entry.module.stop with
      | none =>
        ⟨.ok (), r1.setEntry name { entry with state := ModuleState.stopped }, []⟩
      | some (.ok _) =>
        ⟨.ok (), r1.setEntry name { entry with state := ModuleState.stopped },
          [.stopCall name]⟩
      | some (.error e) =>
        ⟨.error (.external e),
          r1.setEntry name { entry with state := ModuleState.error, error := some e },
          [.stopCall name]⟩

/-- Sequential driver of the batch operations: run `f` on each name in
order, halting at (and propagating) the first failure, concatenating the
callback traces. -/
def runSeq (f : ModuleRegistry → String → Outcome) :
    ModuleRegistry → List String → Outcome
  | r, [] => ⟨.ok (), r, []⟩
  | r, n :: ns =>
    match f r n with
    | ⟨.error e, r1, evs⟩ => ⟨.error e, r1, evs⟩
    | ⟨.ok _, r1, evs⟩ =>
      ⟨(runSeq f r1 ns).result, (runSeq f r1 ns).registry,
        evs ++ (runSeq f r1 ns).events⟩

/-- Embedding of `initializeAll` (named `initAll` here): resolve, cache
the order in `startOrder`, then initialize each name in order.  If
resolution throws, `startOrder` keeps its previous value. -/
def ModuleRegistry.initAll (r : ModuleRegistry) : Outcome :=
  match r.resolveDependencyOrder with
  | .error e => ⟨.error e, r, []⟩
  | .ok ord => runSeq ModuleRegistry.initModule { r with startOrder := ord } ord

/-- Embedding of `startAll`: start each name in the cached order. -/
def ModuleRegistry.startAll (r : ModuleRegistry) : Outcome :=
  runSeq ModuleRegistry.start r r.startOrder

/-- Embedding of `stopAll`: stop each name in the reverse of the cached
order. -/
def ModuleRegistry.stopAll (r : ModuleRegistry) : Outcome :=
  runSeq ModuleRegistry.stop r r.startOrder.reverse

/-- Edge of the dependency graph restricted to registered components:
`a` depends on `b`. -/
def Dep (r : ModuleRegistry) (a b : String) : Prop :=
  r.registered a ∧ r.registered b ∧ b ∈ r.depsOfName a

/-- The restricted dependency graph has no cycle. -/
def Acyclic (r : ModuleRegistry) : Prop :=
  ∀ n, ¬ Relation.TransGen (Dep r) n n

/-- Topological-order property of an emitted order: every registered
dependency of a listed component appears strictly before it. -/
def SortedOrder (r : ModuleRegistry) (order : List String) : Prop :=
  ∀ pre a post, order = pre ++ a :: post →
    ∀ d, d ∈ r.depsOfName a → r.registered d → d ∈ pre

/-- Name carried by a callback-invocation event. -/
def Event.name : Event → String
  | .initCall n => n
  | .startCall n => n
  | .stopCall n => n

/-! ### Lookup and update lemmas -/

theorem lookup_replace_self (l : List (String × ModuleEntry)) (name : String)
    (e : ModuleEntry) :
    List.lookup name (l.map (fun p => if p.1 = name then (p.1, e) else p)) =
      (List.lookup name l).map (fun _ => e) := by
  induction l with
  | nil => rfl
  | cons p t ih =>
    obtain ⟨k, v⟩ := p
    by_cases h : k = name
    · subst h
      rw [List.map_cons, if_pos (show ((k, v) : String × ModuleEntry).1 = k from rfl)]
      simp [List.lookup]
    · have h' : (name == k) = false := by
        simp only [beq_eq_false_iff_ne, ne_eq]; exact fun hn => h hn.symm
      rw [List.map_cons, if_neg (show ¬ ((k, v) : String × ModuleEntry).1 = name from h)]
      simp [List.lookup, h', ih]

theorem lookup_replace_ne (l : List (String × ModuleEntry)) (name m : String)
    (e : ModuleEntry) (h : m ≠ name) :
    List.lookup m (l.map (fun p => if p.1 = name then (p.1, e) else p)) =
      List.lookup m l := by
  induction l with
  | nil => rfl
  | cons p t ih =>
    obtain ⟨k, v⟩ := p
    by_cases hp : k = name
    · subst hp
      have h' : (m == k) = false := by
        simp only [beq_eq_false_iff_ne, ne_eq]; exact h
      rw [List.map_cons, if_pos (show ((k, v) : String × ModuleEntry).1 = k from rfl)]
      simp [List.lookup, h', ih]
    · rw [List.map_cons, if_neg (show ¬ ((k, v) : String × ModuleEntry).1 = name from hp)]
      by_cases hm : (m == k) = true
      · simp [List.lookup, hm]
      · simp [List.lookup, hm, ih]

theorem ModuleRegistry.lookup_setEntry_self (r : ModuleRegistry) (name : String)
    (e : ModuleEntry) :
    (r.setEntry name e).lookup name = (r.lookup name).map (fun _ => e) :=
  lookup_replace_self r.modules name e

theorem ModuleRegistry.lookup_setEntry_ne (r : ModuleRegistry) (name m : String)
    (e : ModuleEntry) (h : m ≠ name) :
    (r.setEntry name e).lookup m = r.lookup m :=
  lookup_replace_ne r.modules name m e h

theorem ModuleRegistry.startOrder_setEntry (r : ModuleRegistry) (name : String)
    (e : ModuleEntry) : (r.setEntry name e).startOrder = r.startOrder := rfl

theorem ModuleRegistry.regNames_setEntry (r : ModuleRegistry) (name : String)
    (e : ModuleEntry) : (r.setEntry name e).regNames = r.regNames := by
  show (r.modules.map _).map Prod.fst = r.modules.map Prod.fst
  rw [List.map_map]
  apply List.map_congr_left
  intro p _
  by_cases h : p.1 = name <;> simp [h]

theorem mem_keys_of_lookup_isSome {l : List (String × ModuleEntry)} {n : String}
    (h : (List.lookup n l).isSome = true) : n ∈ l.map Prod.fst := by
  induction l with
  | nil => simp [List.lookup] at h
  | cons p t ih =>
    obtain ⟨k, v⟩ := p
    by_cases hp : n = k
    · simp [hp]
    · simp only [List.lookup, beq_false_of_ne hp] at h
      simpa using Or.inr (ih h)

theorem lookup_isSome_of_mem_keys {l : List (String × ModuleEntry)} {n : String}
    (h : n ∈ l.map Prod.fst) : (List.lookup n l).isSome = true := by
  induction l with
  | nil => simp at h
  | cons p t ih =>
    obtain ⟨k, v⟩ := p
    by_cases hp : n = k
    · subst hp; simp [List.lookup]
    · simp only [List.map_cons, List.mem_cons] at h
      rcases h with h | h
      · exact absurd h hp
      · simp [List.lookup, beq_false_of_ne hp, ih h]

theorem ModuleRegistry.registered_iff_mem_regNames (r : ModuleRegistry) (n : String) :
    r.registered n ↔ n ∈ r.regNames :=
  ⟨mem_keys_of_lookup_isSome, lookup_isSome_of_mem_keys⟩

/-! ### Branch lemmas for the single-module lifecycle operations -/

theorem ModuleRegistry.initModule_noop (r : ModuleRegistry) (name : String)
    (entry : ModuleEntry) (hl : r.lookup name = some entry)
    (hs : entry.state ≠ ModuleState.uninitialized) :
    r.initModule name = ⟨.ok (), r, []⟩ := by
  unfold ModuleRegistry.initModule
  rw [hl]
  simp [hs]

theorem ModuleRegistry.initModule_missing (r : ModuleRegistry) (name : String)
    (entry : ModuleEntry) (hl : r.lookup name = some entry)
    (hs : entry.state = ModuleState.uninitialized)
    (hm : r.checkDependencies entry.module ≠ []) :
    r.initModule name =
      ⟨.error (.missingDeps name (r.checkDependencies entry.module)), r, []⟩ := by
  unfold ModuleRegistry.initModule
  rw [hl]
  simp [hs, hm]

theorem ModuleRegistry.initModule_cbFail (r : ModuleRegistry) (name : String)
    (entry : ModuleEntry) (e : Nat) (hl : r.lookup name = some entry)
    (hs : entry.state = ModuleState.uninitialized)
    (hm : r.checkDependencies entry.module = [])
    (hf : entry.module.deps.find? r.unready = none)
    (hi : entry.module.init = some (.error e)) :
    r.initModule name =
      ⟨.error (.external e),
        (r.setEntry name { entry with state := ModuleState.initializing }).setEntry name
          { entry with state := ModuleState.error, error := some e },
        [.initCall name]⟩ := by
  unfold ModuleRegistry.initModule
  rw [hl]
  simp [hs, hm, hf, hi]

theorem ModuleRegistry.initModule_cbOk (r : ModuleRegistry) (name : String)
    (entry : ModuleEntry) (hl : r.lookup name = some entry)
    (hs : entry.state = ModuleState.uninitialized)
    (hm : r.checkDependencies entry.module = [])
    (hf : entry.module.deps.find? r.unready = none)
    (hi : entry.module.init = some (.ok ())) :
    r.initModule name =
      ⟨.ok (),
        (r.setEntry name { entry with state := ModuleState.initializing }).setEntry name
          { entry with state := ModuleState.initialized },
        [.initCall name]⟩ := by
  unfold ModuleRegistry.initModule
  rw [hl]
  simp [hs, hm, hf, hi]

theorem ModuleRegistry.initModule_cbAbsent (r : ModuleRegistry) (name : String)
    (entry : ModuleEntry) (hl : r.lookup name = some entry)
    (hs : entry.state = ModuleState.uninitialized)
    (hm : r.checkDependencies entry.module = [])
    (hf : entry.module.deps.find? r.unready = none)
    (hi : entry.module.init = none) :
    r.initModule name =
      ⟨.ok (),
        (r.setEntry name { entry with state := ModuleState.initializing }).setEntry name
          { entry with state := ModuleState.initialized },
        []⟩ := by
  unfold ModuleRegistry.initModule
  rw [hl]
  simp [hs, hm, hf, hi]

theorem ModuleRegistry.start_invalid (r : ModuleRegistry) (name : String)
    (entry : ModuleEntry) (hl : r.lookup name = some entry)
    (h1 : entry.state ≠ ModuleState.running)
    (h2 : entry.state ≠ ModuleState.initialized)
    (h3 : entry.state ≠ ModuleState.stopped) :
    r.start name = ⟨.error (.invalidState name), r, []⟩ := by
  unfold ModuleRegistry.start
  rw [hl]
  simp [h1, h2, h3]

theorem ModuleRegistry.stop_noop (r : ModuleRegistry) (name : String)
    (entry : ModuleEntry) (hl : r.lookup name = some entry)
    (hs : entry.state = ModuleState.uninitialized ∨ entry.state = ModuleState.stopped ∨
      entry.state = ModuleState.stopping) :
    r.stop name = ⟨.ok (), r, []⟩ := by
  unfold ModuleRegistry.stop
  rw [hl]
  simp [hs]

theorem ModuleRegistry.stop_active_absent (r : ModuleRegistry) (name : String)
    (entry : ModuleEntry) (hl : r.lookup name = some entry)
    (h1 : entry.state ≠ ModuleState.uninitialized)
    (h2 : entry.state ≠ ModuleState.stopped)
    (h3 : entry.state ≠ ModuleState.stopping)
    (hc : entry.module.stop = none) :
    r.stop name =
      ⟨.ok (),
        (r.setEntry name { entry with state := ModuleState.stopping }).setEntry name
          { entry with state := ModuleState.stopped },
        []⟩ := by
  unfold ModuleRegistry.stop
  rw [hl]
  simp [h1, h2, h3, hc]

theorem ModuleRegistry.stop_active_ok (r : ModuleRegistry) (name : String)
    (entry : ModuleEntry) (hl : r.lookup name = some entry)
    (h1 : entry.state ≠ ModuleState.uninitialized)
    (h2 : entry.state ≠ ModuleState.stopped)
    (h3 : entry.state ≠ ModuleState.stopping)
    (hc : entry.module.stop = some (.ok ())) :
    r.stop name =
      ⟨.ok (),
        (r.setEntry name { entry with state := ModuleState.stopping }).setEntry name
          { entry with state := ModuleState.stopped },
        [.stopCall name]⟩ := by
  unfold ModuleRegistry.stop
  rw [hl]
  simp [h1, h2, h3, hc]

theorem ModuleRegistry.stop_active_fail (r : ModuleRegistry) (name : String)
    (entry : ModuleEntry) (e : Nat) (hl : r.lookup name = some entry)
    (h1 : entry.state ≠ ModuleState.uninitialized)
    (h2 : entry.state ≠ ModuleState.stopped)
    (h3 : entry.state ≠ ModuleState.stopping)
    (hc : entry.module.stop = some (.error e)) :
    r.stop name =
      ⟨.error (.external e),
        (r.setEntry name { entry with state := ModuleState.stopping }).setEntry name
          { entry with state := ModuleState.error, error := some e },
        [.stopCall name]⟩ := by
  unfold ModuleRegistry.stop
  rw [hl]
  simp [h1, h2, h3, hc]

theorem ModuleRegistry.start_cbFail (r : ModuleRegistry) (name : String)
    (entry : ModuleEntry) (e : Nat) (hl : r.lookup name = some entry)
    (h1 : entry.state = ModuleState.initialized ∨ entry.state = ModuleState.stopped)
    (hc : entry.module.start = some (.error e)) :
    r.start name =
      ⟨.error (.external e),
        (r.setEntry name { entry with state := ModuleState.starting }).setEntry name
          { entry with state := ModuleState.error, error := some e },
        [.startCall name]⟩ := by
  have h1' : entry.state ≠ ModuleState.running := by
    rcases h1 with h | h <;> simp [h]
  unfold ModuleRegistry.start
  rw [hl]
  rcases h1 with h | h <;> simp [h1', h, hc]

/-- Every state reached by a double `setEntry` of the same name on a
registry where the name is bound. -/
theorem ModuleRegistry.getState_setEntry_setEntry (r : ModuleRegistry) (name : String)
    (entry e1 e2 : ModuleEntry) (hl : r.lookup name = some entry) :
    ((r.setEntry name e1).setEntry name e2).getState name = some e2.state := by
  unfold ModuleRegistry.getState
  rw [ModuleRegistry.lookup_setEntry_self, ModuleRegistry.lookup_setEntry_self, hl]
  rfl

theorem ModuleRegistry.lookup_setEntry_setEntry (r : ModuleRegistry) (name : String)
    (entry e1 e2 : ModuleEntry) (hl : r.lookup name = some entry) :
    ((r.setEntry name e1).setEntry name e2).lookup name = some e2 := by
  rw [ModuleRegistry.lookup_setEntry_self, ModuleRegistry.lookup_setEntry_self, hl]
  rfl

/-! ### Concrete scenario registries, shared by witnesses and
counterexamples -/

/-- Registry extraction for scenario builders (registration is known to
succeed in every use below). -/
def getOk : Except RegError ModuleRegistry → ModuleRegistry
  | .ok r => r
  | .error _ => ModuleRegistry.empty

/-- Component A of the spec scenario: no dependencies, all callbacks
present and succeeding. -/
def modA : Module :=
  ⟨"A", "1.0.0", none, some (.ok ()), some (.ok ()), some (.ok ()), none⟩

/-- Component B of the spec scenario: depends on A, all callbacks present
and succeeding. -/
def modB : Module :=
  ⟨"B", "1.0.0", some ["A"], some (.ok ()), some (.ok ()), some (.ok ()), none⟩

/-- A component whose `init` callback throws the error `5`; no other
callbacks. -/
def modM : Module := ⟨"M", "1.0.0", none, some (.error 5), none, none, none⟩

/-- Registry with A and B registered, in that order. -/
def regAB : ModuleRegistry :=
  getOk ((getOk (ModuleRegistry.empty.register modA)).register modB)

/-- Registry with the failing component M registered. -/
def regM : ModuleRegistry := getOk (ModuleRegistry.empty.register modM)

/-- Registry with the cycle A→B→A. -/
def regCycle : ModuleRegistry :=
  getOk ((getOk (ModuleRegistry.empty.register
    ⟨"A", "1.0.0", some ["B"], none, none, none, none⟩)).register
    ⟨"B", "1.0.0", some ["A"], none, none, none, none⟩)

/-! ### Claims about registration and the single-module operations -/

/-- C8: registering a name that is already bound fails with the
DuplicateNameError throw site; the function rejects the call before
touching the module map, so the registry value (every existing entry, its
state and recorded error) is unchanged and no entry is added — the
operation returns only the error. -/
theorem claim_c8 : ∀ (r : ModuleRegistry) (m : Module),
    (r.lookup m.name).isSome = true →
    r.register m = .error (.duplicateName m.name) := by
  intro r m h
  unfold ModuleRegistry.register
  simp [h]

theorem claim_c8_witness :
    (regAB.lookup modA.name).isSome = true ∧
    regAB.register modA = .error (.duplicateName modA.name) :=
  ⟨by decide, claim_c8 regAB modA (by decide)⟩

/-- C5: `initialize` is idempotent.  A registered component whose state is
not UNINITIALIZED gets an immediate success with no callback invocation
and no registry change; consequently a second `initialize` directly after
a successful one is a no-op, so `onInit` runs exactly once across the two
calls. -/
theorem claim_c5 :
    (∀ (r : ModuleRegistry) (name : String) (entry : ModuleEntry),
      r.lookup name = some entry →
      entry.state ≠ ModuleState.uninitialized →
      r.initModule name = ⟨.ok (), r, []⟩) ∧
    (∀ (r : ModuleRegistry) (name : String),
      (r.initModule name).result = .ok () →
      ((r.initModule name).registry).initModule name =
        ⟨.ok (), (r.initModule name).registry, []⟩) := by
  constructor
  · exact fun r name entry hl hs => ModuleRegistry.initModule_noop r name entry hl hs
  · intro r name h
    cases hl : r.lookup name with
    | none =>
      exfalso
      unfold ModuleRegistry.initModule at h
      rw [hl] at h
      simp at h
    | some entry =>
      by_cases hs : entry.state = ModuleState.uninitialized
      · by_cases hm : r.checkDependencies entry.module = []
        · cases hf : entry.module.deps.find? r.unready with
          | some d =>
            exfalso
            unfold ModuleRegistry.initModule at h
            rw [hl] at h
            simp [hs, hm, hf] at h
          | none =>
            cases hi : entry.module.init with
            | none =>
              rw [ModuleRegistry.initModule_cbAbsent r name entry hl hs hm hf hi]
              exact ModuleRegistry.initModule_noop _ name _
                (ModuleRegistry.lookup_setEntry_setEntry r name entry _ _ hl) (by simp)
            | some v =>
              cases v with
              | ok u =>
                cases u
                rw [ModuleRegistry.initModule_cbOk r name entry hl hs hm hf hi]
                exact ModuleRegistry.initModule_noop _ name _
                  (ModuleRegistry.lookup_setEntry_setEntry r name entry _ _ hl) (by simp)
              | error e =>
                exfalso
                rw [ModuleRegistry.initModule_cbFail r name entry e hl hs hm hf hi] at h
                simp at h
        · exfalso
          rw [ModuleRegistry.initModule_missing r name entry hl hs hm] at h
          simp at h
      · rw [ModuleRegistry.initModule_noop r name entry hl hs]
        exact ModuleRegistry.initModule_noop r name entry hl hs

theorem claim_c5_witness :
    regAB.initAll.registry.lookup "A" ≠ none ∧
    (regAB.initAll.registry.initModule "A").result = .ok () ∧
    ((regAB.initAll.registry.initModule "A").registry).initModule "A" =
      ⟨.ok (), (regAB.initAll.registry.initModule "A").registry, []⟩ :=
  ⟨by decide, by decide, claim_c5.2 regAB.initAll.registry "A" (by decide)⟩

/-- C4: when a registered, UNINITIALIZED component with satisfied
dependency checks has an `init` callback that throws `e`, `initialize`
re-raises the error, the entry ends in state ERROR with the error
recorded, and a subsequent direct `start` fails with the
InvalidStateError throw site, invoking no callback and changing
nothing. -/
theorem claim_c4 : ∀ (r : ModuleRegistry) (name : String) (entry : ModuleEntry) (e : Nat),
    r.lookup name = some entry →
    entry.state = ModuleState.uninitialized →
    r.checkDependencies entry.module = [] →
    entry.module.deps.find? r.unready = none →
    entry.module.init = some (.error e) →
    (r.initModule name).result = .error (.external e) ∧
    (r.initModule name).events = [.initCall name] ∧
    ((r.initModule name).registry).getState name = some ModuleState.error ∧
    (∃ en, ((r.initModule name).registry).lookup name = some en ∧ en.error = some e) ∧
    ((r.initModule name).registry).start name =
      ⟨.error (.invalidState name), (r.initModule name).registry, []⟩ := by
  intro r name entry e hl hs hm hf hi
  rw [ModuleRegistry.initModule_cbFail r name entry e hl hs hm hf hi]
  have hl' := ModuleRegistry.lookup_setEntry_setEntry r name entry
    { entry with state := ModuleState.initializing }
    { entry with state := ModuleState.error, error := some e } hl
  refine ⟨rfl, rfl, ?_, ⟨_, hl', rfl⟩, ?_⟩
  · exact ModuleRegistry.getState_setEntry_setEntry r name entry _ _ hl
  · exact ModuleRegistry.start_invalid _ name _ hl' (by simp) (by simp) (by simp)

theorem claim_c4_witness :
    (regM.initModule "M").result = .error (.external 5) ∧
    ((regM.initModule "M").registry).getState "M" = some ModuleState.error ∧
    ((regM.initModule "M").registry).start "M" =
      ⟨.error (.invalidState "M"), (regM.initModule "M").registry, []⟩ := by
  have h := claim_c4 regM "M" ⟨modM, ModuleState.uninitialized, none⟩ 5
    (by decide) (by decide) (by decide) (by decide) (by decide)
  exact ⟨h.1, h.2.2.1, h.2.2.2.2⟩

/-- C6 counterexample: the claim says no lifecycle operation moves a
component out of ERROR, but `stop`'s no-op guard lists only
UNINITIALIZED, STOPPED and STOPPING, so it treats ERROR as active.  On
the concrete registry where M's `init` failed (M is in state ERROR after
`initializeAll`), `stop("M")` succeeds and leaves M in state STOPPED —
out of ERROR with no external intervention. -/
theorem claim_c6_counterexample :
    regM.initAll.registry.getState "M" = some ModuleState.error ∧
    (regM.initAll.registry.stop "M").result = .ok () ∧
    (regM.initAll.registry.stop "M").registry.getState "M" =
      some ModuleState.stopped := by
  decide

/-- C6 amended: `initialize` and `start` never move a component out of
ERROR (`initialize` is a no-op, `start` fails with InvalidStateError,
both leaving the registry untouched), but `stop` does not treat ERROR as
terminal: it proceeds, ending in STOPPED when the `stop` callback is
absent or succeeds, and back in ERROR (with the new error recorded) when
it fails. -/
theorem claim_c6_amended : ∀ (r : ModuleRegistry) (name : String) (entry : ModuleEntry),
    r.lookup name = some entry →
    entry.state = ModuleState.error →
    r.initModule name = ⟨.ok (), r, []⟩ ∧
    r.start name = ⟨.error (.invalidState name), r, []⟩ ∧
    ((entry.module.stop = none ∨ entry.module.stop = some (.ok ())) →
      (r.stop name).result = .ok () ∧
      (r.stop name).registry.getState name = some ModuleState.stopped) ∧
    (∀ e, entry.module.stop = some (.error e) →
      (r.stop name).result = .error (.external e) ∧
      (r.stop name).registry.getState name = some ModuleState.error) := by
  intro r name entry hl hs
  refine ⟨?_, ?_, ?_, ?_⟩
  · exact ModuleRegistry.initModule_noop r name entry hl (by simp [hs])
  · exact ModuleRegistry.start_invalid r name entry hl
      (by simp [hs]) (by simp [hs]) (by simp [hs])
  · rintro (hc | hc)
    · rw [ModuleRegistry.stop_active_absent r name entry hl
        (by simp [hs]) (by simp [hs]) (by simp [hs]) hc]
      exact ⟨rfl, ModuleRegistry.getState_setEntry_setEntry r name entry _ _ hl⟩
    · rw [ModuleRegistry.stop_active_ok r name entry hl
        (by simp [hs]) (by simp [hs]) (by simp [hs]) hc]
      exact ⟨rfl, ModuleRegistry.getState_setEntry_setEntry r name entry _ _ hl⟩
  · intro e hc
    rw [ModuleRegistry.stop_active_fail r name entry e hl
      (by simp [hs]) (by simp [hs]) (by simp [hs]) hc]
    exact ⟨rfl, ModuleRegistry.getState_setEntry_setEntry r name entry _ _ hl⟩

theorem claim_c6_witness :
    regM.initAll.registry.initModule "M" = ⟨.ok (), regM.initAll.registry, []⟩ ∧
    regM.initAll.registry.start "M" =
      ⟨.error (.invalidState "M"), regM.initAll.registry, []⟩ := by
  have h := claim_c6_amended regM.initAll.registry "M"
    ⟨modM, ModuleState.error, some 5⟩ (by decide) (by decide)
  exact ⟨h.1, h.2.1⟩

/-- C7 counterexample: the claim says a failing callback is re-raised
wrapped in a generic CallbackError rather than as the raw error itself;
the source's catch blocks run `throw error` on the caught object
unchanged, so the caller receives the raw callback error.  On the
concrete registry where M's `init` throws the error `5`, the error that
reaches the caller is exactly `RegError.external 5` — the embedding of
the raw re-thrown callback error, with no wrapper around it. -/
theorem claim_c7_counterexample :
    (regM.initModule "M").result = .error (.external 5) := by
  decide

/-- C7 amended: for every callback failure during `initialize`, `start`
or `stop`, the error re-raised to the immediate caller is the raw error
the component's own callback raised, re-thrown unchanged (no wrapping
CallbackError exists in the code). -/
theorem claim_c7_amended :
    (∀ (r : ModuleRegistry) (name : String) (entry : ModuleEntry) (e : Nat),
      r.lookup name = some entry →
      entry.state = ModuleState.uninitialized →
      r.checkDependencies entry.module = [] →
      entry.module.deps.find? r.unready = none →
      entry.module.init = some (.error e) →
      (r.initModule name).result = .error (.external e)) ∧
    (∀ (r : ModuleRegistry) (name : String) (entry : ModuleEntry) (e : Nat),
      r.lookup name = some entry →
      (entry.state = ModuleState.initialized ∨ entry.state = ModuleState.stopped) →
      entry.module.start = some (.error e) →
      (r.start name).result = .error (.external e)) ∧
    (∀ (r : ModuleRegistry) (name : String) (entry : ModuleEntry) (e : Nat),
      r.lookup name = some entry →
      entry.state ≠ ModuleState.uninitialized →
      entry.state ≠ ModuleState.stopped →
      entry.state ≠ ModuleState.stopping →
      entry.module.stop = some (.error e) →
      (r.stop name).result = .error (.external e)) := by
  refine ⟨?_, ?_, ?_⟩
  · intro r name entry e hl hs hm hf hi
    rw [ModuleRegistry.initModule_cbFail r name entry e hl hs hm hf hi]
  · intro r name entry e hl h1 hc
    rw [ModuleRegistry.start_cbFail r name entry e hl h1 hc]
  · intro r name entry e hl h1 h2 h3 hc
    rw [ModuleRegistry.stop_active_fail r name entry e hl h1 h2 h3 hc]

theorem claim_c7_witness :
    (regM.initModule "M").result = Except.error (RegError.external 5) :=
  claim_c7_amended.1 regM "M" ⟨modM, ModuleState.uninitialized, none⟩ 5
    (by decide) (by decide) (by decide) (by decide) (by decide)

/-! ### Remaining branch lemmas, and per-call facts used by the batch
drivers -/

theorem ModuleRegistry.start_noop_running (r : ModuleRegistry) (name : String)
    (entry : ModuleEntry) (hl : r.lookup name = some entry)
    (hs : entry.state = ModuleState.running) :
    r.start name = ⟨.ok (), r, []⟩ := by
  unfold ModuleRegistry.start
  rw [hl]
  simp [hs]

theorem ModuleRegistry.start_cbAbsent (r : ModuleRegistry) (name : String)
    (entry : ModuleEntry) (hl : r.lookup name = some entry)
    (h1 : entry.state = ModuleState.initialized ∨ entry.state = ModuleState.stopped)
    (hc : entry.module.start = none) :
    r.start name =
      ⟨.ok (),
        (r.setEntry name { entry with state := ModuleState.starting }).setEntry name
          { entry with state := ModuleState.running },
        []⟩ := by
  have h1' : entry.state ≠ ModuleState.running := by
    rcases h1 with h | h <;> simp [h]
  unfold ModuleRegistry.start
  rw [hl]
  rcases h1 with h | h <;> simp [h1', h, hc]

theorem ModuleRegistry.start_cbOk (r : ModuleRegistry) (name : String)
    (entry : ModuleEntry) (hl : r.lookup name = some entry)
    (h1 : entry.state = ModuleState.initialized ∨ entry.state = ModuleState.stopped)
    (hc : entry.module.start = some (.ok ())) :
    r.start name =
      ⟨.ok (),
        (r.setEntry name { entry with state := ModuleState.starting }).setEntry name
          { entry with state := ModuleState.running },
        [.startCall name]⟩ := by
  have h1' : entry.state ≠ ModuleState.running := by
    rcases h1 with h | h <;> simp [h]
  unfold ModuleRegistry.start
  rw [hl]
  rcases h1 with h | h <;> simp [h1', h, hc]

theorem ModuleRegistry.initModule_depNotReady (r : ModuleRegistry) (name : String)
    (entry : ModuleEntry) (d : String) (hl : r.lookup name = some entry)
    (hs : entry.state = ModuleState.uninitialized)
    (hm : r.checkDependencies entry.module = [])
    (hf : entry.module.deps.find? r.unready = some d) :
    r.initModule name = ⟨.error (.depNotReady name d), r, []⟩ := by
  unfold ModuleRegistry.initModule
  rw [hl]
  simp [hs, hm, hf]

/-- Every event emitted by a single `start` call names the started
module. -/
theorem ModuleRegistry.start_event_name (r : ModuleRegistry) (n : String) :
    ∀ ev ∈ (r.start n).events, ev.name = n := by
  intro ev hev
  cases hl : r.lookup n with
  | none =>
    unfold ModuleRegistry.start at hev
    rw [hl] at hev
    simp at hev
  | some entry =>
    by_cases h1 : entry.state = ModuleState.running
    · rw [ModuleRegistry.start_noop_running r n entry hl h1] at hev
      simp at hev
    · by_cases h2 : entry.state = ModuleState.initialized ∨
          entry.state = ModuleState.stopped
      · cases hc : entry.module.start with
        | none =>
          rw [ModuleRegistry.start_cbAbsent r n entry hl h2 hc] at hev
          simp at hev
        | some v =>
          cases v with
          | ok u =>
            cases u
            rw [ModuleRegistry.start_cbOk r n entry hl h2 hc] at hev
            simp at hev
            simp [hev, Event.name]
          | error e =>
            rw [ModuleRegistry.start_cbFail r n entry e hl h2 hc] at hev
            simp at hev
            simp [hev, Event.name]
      · push_neg at h2
        rw [ModuleRegistry.start_invalid r n entry hl h1 h2.1 h2.2] at hev
        simp at hev

/-- A single `start` call touches no entry other than its own. -/
theorem ModuleRegistry.start_lookup_ne (r : ModuleRegistry) (n m : String)
    (hm : m ≠ n) : ((r.start n).registry).lookup m = r.lookup m := by
  cases hl : r.lookup n with
  | none =>
    unfold ModuleRegistry.start
    rw [hl]
  | some entry =>
    by_cases h1 : entry.state = ModuleState.running
    · rw [ModuleRegistry.start_noop_running r n entry hl h1]
    · by_cases h2 : entry.state = ModuleState.initialized ∨
          entry.state = ModuleState.stopped
      · cases hc : entry.module.start with
        | none =>
          rw [ModuleRegistry.start_cbAbsent r n entry hl h2 hc]
          rw [ModuleRegistry.lookup_setEntry_ne _ _ _ _ hm,
            ModuleRegistry.lookup_setEntry_ne _ _ _ _ hm]
        | some v =>
          cases v with
          | ok u =>
            cases u
            rw [ModuleRegistry.start_cbOk r n entry hl h2 hc]
            rw [ModuleRegistry.lookup_setEntry_ne _ _ _ _ hm,
              ModuleRegistry.lookup_setEntry_ne _ _ _ _ hm]
          | error e =>
            rw [ModuleRegistry.start_cbFail r n entry e hl h2 hc]
            rw [ModuleRegistry.lookup_setEntry_ne _ _ _ _ hm,
              ModuleRegistry.lookup_setEntry_ne _ _ _ _ hm]
      · push_neg at h2
        rw [ModuleRegistry.start_invalid r n entry hl h1 h2.1 h2.2]

/-- Every event emitted by a single `stop` call names the stopped
module. -/
theorem ModuleRegistry.stop_event_name (r : ModuleRegistry) (n : String) :
    ∀ ev ∈ (r.stop n).events, ev.name = n := by
  intro ev hev
  cases hl : r.lookup n with
  | none =>
    unfold ModuleRegistry.stop at hev
    rw [hl] at hev
    simp at hev
  | some entry =>
    by_cases h1 : entry.state = ModuleState.uninitialized ∨
        entry.state = ModuleState.stopped ∨ entry.state = ModuleState.stopping
    · rw [ModuleRegistry.stop_noop r n entry hl h1] at hev
      simp at hev
    · push_neg at h1
      cases hc : entry.module.stop with
      | none =>
        rw [ModuleRegistry.stop_active_absent r n entry hl h1.1 h1.2.1 h1.2.2 hc] at hev
        simp at hev
      | some v =>
        cases v with
        | ok u =>
          cases u
          rw [ModuleRegistry.stop_active_ok r n entry hl h1.1 h1.2.1 h1.2.2 hc] at hev
          simp at hev
          simp [hev, Event.name]
        | error e =>
          rw [ModuleRegistry.stop_active_fail r n entry e hl h1.1 h1.2.1 h1.2.2 hc] at hev
          simp at hev
          simp [hev, Event.name]

/-- A single `stop` call touches no entry other than its own. -/
theorem ModuleRegistry.stop_lookup_ne (r : ModuleRegistry) (n m : String)
    (hm : m ≠ n) : ((r.stop n).registry).lookup m = r.lookup m := by
  cases hl : r.lookup n with
  | none =>
    unfold ModuleRegistry.stop
    rw [hl]
  | some entry =>
    by_cases h1 : entry.state = ModuleState.uninitialized ∨
        entry.state = ModuleState.stopped ∨ entry.state = ModuleState.stopping
    · rw [ModuleRegistry.stop_noop r n entry hl h1]
    · push_neg at h1
      cases hc : entry.module.stop with
      | none =>
        rw [ModuleRegistry.stop_active_absent r n entry hl h1.1 h1.2.1 h1.2.2 hc]
        rw [ModuleRegistry.lookup_setEntry_ne _ _ _ _ hm,
          ModuleRegistry.lookup_setEntry_ne _ _ _ _ hm]
      | some v =>
        cases v with
        | ok u =>
          cases u
          rw [ModuleRegistry.stop_active_ok r n entry hl h1.1 h1.2.1 h1.2.2 hc]
          rw [ModuleRegistry.lookup_setEntry_ne _ _ _ _ hm,
            ModuleRegistry.lookup_setEntry_ne _ _ _ _ hm]
        | error e =>
          rw [ModuleRegistry.stop_active_fail r n entry e hl h1.1 h1.2.1 h1.2.2 hc]
          rw [ModuleRegistry.lookup_setEntry_ne _ _ _ _ hm,
            ModuleRegistry.lookup_setEntry_ne _ _ _ _ hm]

/-- Events of a sequential batch run name only members of the driven
list. -/
theorem runSeq_event_name (f : ModuleRegistry → String → Outcome)
    (Hev : ∀ r n, ∀ ev ∈ (f r n).events, Event.name ev = n) :
    ∀ (l : List String) (r : ModuleRegistry), ∀ ev ∈ (runSeq f r l).events,
      Event.name ev ∈ l := by
  intro l
  induction l with
  | nil => intro r ev hev; simp [runSeq] at hev
  | cons n ns ih =>
    intro r ev hev
    unfold runSeq at hev
    rcases hfr : f r n with ⟨res, r1, evs⟩
    rw [hfr] at hev
    have hevs : ∀ ev ∈ evs, Event.name ev = n := by
      intro ev' hev'
      exact Hev r n ev' (by rw [hfr]; exact hev')
    cases res with
    | error e =>
      simp only at hev
      simp [hevs ev hev]
    | ok u =>
      simp only [List.mem_append] at hev
      rcases hev with hev | hev
      · simp [hevs ev hev]
      · simp [ih r1 ev hev]

/-- A sequential batch run touches no entry whose name is outside the
driven list. -/
theorem runSeq_lookup_ne (f : ModuleRegistry → String → Outcome)
    (Hfr : ∀ r n m, m ≠ n → ((f r n).registry).lookup m = r.lookup m) :
    ∀ (l : List String) (r : ModuleRegistry) (m : String), m ∉ l →
      ((runSeq f r l).registry).lookup m = r.lookup m := by
  intro l
  induction l with
  | nil => intro r m _; rfl
  | cons n ns ih =>
    intro r m hm
    have hmn : m ≠ n := fun h => hm (h ▸ List.mem_cons_self n ns)
    have hmns : m ∉ ns := fun h => hm (List.mem_cons_of_mem n h)
    have hfr1 : ((f r n).registry).lookup m = r.lookup m := Hfr r n m hmn
    unfold runSeq
    rcases hfr : f r n with ⟨res, r1, evs⟩
    rw [hfr] at hfr1
    cases res with
    | error e => exact hfr1
    | ok u =>
      simp only
      rw [ih r1 m hmns]
      exact hfr1

/-- C10: the batch drivers act only on the cached resolved order.  A
fresh registry has an empty cached order, `register` never changes it, a
registry whose cached order is empty gets pure no-ops from `startAll` and
`stopAll` (success, no events, registry unchanged), every event of
`startAll`/`stopAll` names a member of the cached order, and an entry
whose name is outside the cached order is never touched by them. -/
theorem claim_c10 :
    ModuleRegistry.empty.startOrder = [] ∧
    (∀ (r : ModuleRegistry) (m : Module) (r' : ModuleRegistry),
      r.register m = .ok r' → r'.startOrder = r.startOrder) ∧
    (∀ r : ModuleRegistry, r.startOrder = [] →
      r.startAll = ⟨.ok (), r, []⟩ ∧ r.stopAll = ⟨.ok (), r, []⟩) ∧
    (∀ (r : ModuleRegistry), ∀ ev ∈ r.startAll.events, Event.name ev ∈ r.startOrder) ∧
    (∀ (r : ModuleRegistry), ∀ ev ∈ r.stopAll.events, Event.name ev ∈ r.startOrder) ∧
    (∀ (r : ModuleRegistry) (n : String), n ∉ r.startOrder →
      (r.startAll.registry).lookup n = r.lookup n ∧
      (r.stopAll.registry).lookup n = r.lookup n) := by
  refine ⟨rfl, ?_, ?_, ?_, ?_, ?_⟩
  · intro r m r' h
    unfold ModuleRegistry.register at h
    by_cases hc : (r.lookup m.name).isSome = true
    · simp [hc] at h
    · simp [hc] at h
      rw [← h]
  · intro r h
    constructor
    · unfold ModuleRegistry.startAll
      rw [h]
      rfl
    · unfold ModuleRegistry.stopAll
      rw [h]
      rfl
  · intro r ev hev
    exact runSeq_event_name ModuleRegistry.start ModuleRegistry.start_event_name
      r.startOrder r ev hev
  · intro r ev hev
    have := runSeq_event_name ModuleRegistry.stop ModuleRegistry.stop_event_name
      r.startOrder.reverse r ev hev
    simpa using this
  · intro r n hn
    constructor
    · exact runSeq_lookup_ne ModuleRegistry.start ModuleRegistry.start_lookup_ne
        r.startOrder r n hn
    · exact runSeq_lookup_ne ModuleRegistry.stop ModuleRegistry.stop_lookup_ne
        r.startOrder.reverse r n (by simpa using hn)

theorem claim_c10_witness :
    regAB.startAll = ⟨.ok (), regAB, []⟩ ∧ regAB.stopAll = ⟨.ok (), regAB, []⟩ :=
  (claim_c10.2.2.1) regAB (by decide)

/-! ### The two-component ordering scenario -/

/-- Component A of the ordering scenario: arbitrary name and version, no
dependencies, all three callbacks present and succeeding. -/
def scenarioModA (a va : String) : Module :=
  ⟨a, va, none, some (.ok ()), some (.ok ()), some (.ok ()), none⟩

/-- Component B of the ordering scenario: arbitrary name and version,
depends on A, all three callbacks present and succeeding. -/
def scenarioModB (b a vb : String) : Module :=
  ⟨b, vb, some [a], some (.ok ()), some (.ok ()), some (.ok ()), none⟩

/-- The scenario registry with A registered before B. -/
def scenarioRegAB (a b va vb : String) : ModuleRegistry :=
  getOk ((getOk (ModuleRegistry.empty.register (scenarioModA a va))).register
    (scenarioModB b a vb))

/-- The scenario registry with B registered before A. -/
def scenarioRegBA (a b va vb : String) : ModuleRegistry :=
  getOk ((getOk (ModuleRegistry.empty.register (scenarioModB b a vb))).register
    (scenarioModA a va))

set_option maxHeartbeats 2000000 in
/-- C3: for every pair of registered components A (no dependencies) and B
(depending on A) — any names, any versions, either registration order —
`initializeAll` invokes A's `onInit` strictly before B's `onInit` (the
trace is exactly `[initCall A, initCall B]`), and a `stopAll` performed
after `startAll` invokes B's `onStop` strictly before A's `onStop` (the
trace is exactly `[stopCall B, stopCall A]`, the reverse of the cached
resolved order). -/
theorem claim_c3 : ∀ a b va vb : String, a ≠ b →
    (scenarioRegAB a b va vb).initAll.events = [.initCall a, .initCall b] ∧
    ((((scenarioRegAB a b va vb).initAll.registry).startAll).registry).stopAll.events =
      [.stopCall b, .stopCall a] ∧
    (scenarioRegBA a b va vb).initAll.events = [.initCall a, .initCall b] ∧
    ((((scenarioRegBA a b va vb).initAll.registry).startAll).registry).stopAll.events =
      [.stopCall b, .stopCall a] := by
  intro a b va vb hab
  have hba : b ≠ a := hab.symm
  have hab' : (a == b) = false := beq_false_of_ne hab
  have hba' : (b == a) = false := beq_false_of_ne hba
  simp [hab', hba', Except.map, hab, hba, scenarioRegAB, scenarioRegBA, scenarioModA,
    scenarioModB, getOk, ModuleRegistry.empty,
    ModuleRegistry.register, ModuleRegistry.lookup, ModuleRegistry.initAll,
    ModuleRegistry.resolveDependencyOrder, ModuleRegistry.regNames,
    ModuleRegistry.visit, visitFold, runSeq, ModuleRegistry.initModule,
    ModuleRegistry.startAll, ModuleRegistry.start, ModuleRegistry.stopAll,
    ModuleRegistry.stop,
    ModuleRegistry.checkDependencies, ModuleRegistry.unready, Module.deps,
    ModuleRegistry.setEntry, List.lookup]

/-! ### Verification of the depth-first resolver

The lemmas below analyse `visit`/`visitFold`.  `visit` returns `.ok` with
the visiting stack restored and the order only extended; a successful
visit of a registered name puts it into the order; the only errors are
`circular` (a genuine revisit of the visiting stack) and the fuel
artefact, which enough fuel rules out. -/

/-- A list-nodup/subset counting fact used by the fuel bound. -/
theorem nodup_subset_length_le {l1 l2 : List String} (h1 : l1.Nodup)
    (h2 : l1 ⊆ l2) : l1.length ≤ l2.length := by
  calc l1.length = l1.toFinset.card := (List.toFinset_card_of_nodup h1).symm
    _ ≤ l2.toFinset.card := Finset.card_le_card (by
        intro x hx
        simp only [List.mem_toFinset] at *
        exact h2 hx)
    _ ≤ l2.length := l2.toFinset_card_le

theorem visitFold_frame (next : VisitState → String → Except RegError VisitState)
    (H : ∀ s n s', next s n = .ok s' →
      s'.visiting = s.visiting ∧ ∃ d, s'.order = s.order ++ d) :
    ∀ (l : List String) (s s' : VisitState), visitFold next s l = .ok s' →
      s'.visiting = s.visiting ∧ ∃ d, s'.order = s.order ++ d := by
  intro l
  induction l with
  | nil =>
    intro s s' h
    simp only [visitFold] at h
    cases h
    exact ⟨rfl, [], by simp⟩
  | cons d ds ih =>
    intro s s' h
    simp only [visitFold] at h
    cases hn : next s d with
    | error e => rw [hn] at h; cases h
    | ok s1 =>
      rw [hn] at h
      obtain ⟨hv1, d1, ho1⟩ := H s d s1 hn
      obtain ⟨hv2, d2, ho2⟩ := ih s1 s' h
      exact ⟨hv2.trans hv1, d1 ++ d2, by rw [ho2, ho1, List.append_assoc]⟩

theorem ModuleRegistry.visit_frame (r : ModuleRegistry) :
    ∀ (fuel : Nat) (s : VisitState) (n : String) (s' : VisitState),
      r.visit fuel s n = .ok s' →
      s'.visiting = s.visiting ∧ ∃ d, s'.order = s.order ++ d := by
  intro fuel
  induction fuel with
  | zero => intro s n s' h; simp [ModuleRegistry.visit] at h
  | succ fuel ih =>
    intro s n s' h
    unfold ModuleRegistry.visit at h
    by_cases h1 : n ∈ s.order
    · simp only [h1, if_true] at h
      cases h
      exact ⟨rfl, [], by simp⟩
    · by_cases h2 : n ∈ s.visiting
      · simp [h1, h2] at h
      · simp only [h1, h2, if_false] at h
        cases hl : r.lookup n with
        | none =>
          rw [hl] at h
          cases h
          exact ⟨rfl, [], by simp⟩
        | some entry =>
          rw [hl] at h
          dsimp only at h
          cases hf : visitFold (r.visit fuel) ⟨n :: s.visiting, s.order⟩
              entry.module.deps with
          | error e => rw [hf] at h; cases h
          | ok s2 =>
            rw [hf] at h
            cases h
            obtain ⟨hv, d, ho⟩ := visitFold_frame (r.visit fuel) ih _ _ _ hf
            refine ⟨?_, d ++ [n], by rw [ho]; simp⟩
            show s2.visiting.erase n = s.visiting
            rw [hv]
            exact List.erase_cons_head n s.visiting

theorem ModuleRegistry.visit_complete (r : ModuleRegistry) :
    ∀ (fuel : Nat) (s : VisitState) (n : String) (s' : VisitState),
      r.visit fuel s n = .ok s' → (n ∈ s.order ∨ r.registered n) → n ∈ s'.order := by
  intro fuel s n s' h hn
  cases fuel with
  | zero => simp [ModuleRegistry.visit] at h
  | succ fuel =>
    unfold ModuleRegistry.visit at h
    by_cases h1 : n ∈ s.order
    · simp only [h1, if_true] at h
      cases h
      exact h1
    · by_cases h2 : n ∈ s.visiting
      · simp [h1, h2] at h
      · simp only [h1, h2, if_false] at h
        cases hl : r.lookup n with
        | none =>
          rcases hn with hn | hn
          · exact absurd hn h1
          · unfold ModuleRegistry.registered at hn
            rw [hl] at hn
            simp at hn
        | some entry =>
          rw [hl] at h
          dsimp only at h
          cases hf : visitFold (r.visit fuel) ⟨n :: s.visiting, s.order⟩
              entry.module.deps with
          | error e => rw [hf] at h; cases h
          | ok s2 =>
            rw [hf] at h
            cases h
            simp

theorem visitFold_complete (r : ModuleRegistry)
    (next : VisitState → String → Except RegError VisitState)
    (Hf : ∀ s n s', next s n = .ok s' →
      s'.visiting = s.visiting ∧ ∃ d, s'.order = s.order ++ d)
    (Hc : ∀ s n s', next s n = .ok s' → (n ∈ s.order ∨ r.registered n) → n ∈ s'.order) :
    ∀ (l : List String) (s s' : VisitState), visitFold next s l = .ok s' →
      ∀ d ∈ l, r.registered d → d ∈ s'.order := by
  intro l
  induction l with
  | nil => intro s s' _ d hd; simp at hd
  | cons x xs ih =>
    intro s s' h d hd hreg
    simp only [visitFold] at h
    cases hn : next s x with
    | error e => rw [hn] at h; cases h
    | ok s1 =>
      rw [hn] at h
      rcases List.mem_cons.mp hd with hd | hd
      · subst hd
        have hds1 : d ∈ s1.order := Hc s d s1 hn (Or.inr hreg)
        obtain ⟨_, dl, ho⟩ := visitFold_frame next Hf xs s1 s' h
        rw [ho]
        exact List.mem_append_left dl hds1
      · exact ih s1 s' h d hd hreg

theorem visitFold_err (next : VisitState → String → Except RegError VisitState)
    (H : ∀ s n e, next s n = .error e →
      (∃ m, e = .circular m) ∨ e = .fuelExhausted) :
    ∀ (l : List String) (s : VisitState) (e : RegError),
      visitFold next s l = .error e →
      (∃ m, e = .circular m) ∨ e = .fuelExhausted := by
  intro l
  induction l with
  | nil => intro s e h; simp [visitFold] at h
  | cons x xs ih =>
    intro s e h
    simp only [visitFold] at h
    cases hn : next s x with
    | error e1 =>
      rw [hn] at h
      cases h
      exact H s x e hn
    | ok s1 =>
      rw [hn] at h
      exact ih s1 e h

theorem ModuleRegistry.visit_err (r : ModuleRegistry) :
    ∀ (fuel : Nat) (s : VisitState) (n : String) (e : RegError),
      r.visit fuel s n = .error e →
      (∃ m, e = .circular m) ∨ e = .fuelExhausted := by
  intro fuel
  induction fuel with
  | zero =>
    intro s n e h
    simp only [ModuleRegistry.visit] at h
    cases h
    exact Or.inr rfl
  | succ fuel ih =>
    intro s n e h
    unfold ModuleRegistry.visit at h
    by_cases h1 : n ∈ s.order
    · simp [h1] at h
    · by_cases h2 : n ∈ s.visiting
      · simp only [h1, h2, if_false, if_true] at h
        cases h
        exact Or.inl ⟨n, rfl⟩
      · simp only [h1, h2, if_false] at h
        cases hl : r.lookup n with
        | none => rw [hl] at h; cases h
        | some entry =>
          rw [hl] at h
          dsimp only at h
          cases hf : visitFold (r.visit fuel) ⟨n :: s.visiting, s.order⟩
              entry.module.deps with
          | error e1 =>
            rw [hf] at h
            cases h
            exact visitFold_err (r.visit fuel) ih _ _ _ hf
          | ok s2 => rw [hf] at h; cases h

/-- Decomposition of a cons-split of a list extended by one element. -/
theorem append_singleton_decomp {α : Type} (l pre post : List α) (a x : α)
    (h : l ++ [x] = pre ++ a :: post) :
    (pre = l ∧ a = x ∧ post = []) ∨
      ∃ post', l = pre ++ a :: post' ∧ post = post' ++ [x] := by
  rcases List.append_eq_append_iff.mp h with ⟨a', h1, h2⟩ | ⟨c', h1, h2⟩
  · cases a' with
    | nil =>
      simp only [List.nil_append, List.cons.injEq] at h2
      obtain ⟨hxa, hpost⟩ := h2
      exact Or.inl ⟨by simp [h1], hxa.symm, hpost.symm⟩
    | cons y ys =>
      simp only [List.cons_append, List.cons.injEq] at h2
      obtain ⟨_, hnil⟩ := h2
      exact absurd hnil.symm (by simp)
  · cases c' with
    | nil =>
      simp only [List.nil_append, List.cons.injEq] at h2
      obtain ⟨hax, hpost⟩ := h2
      exact Or.inl ⟨by simpa using h1.symm, hax, hpost⟩
    | cons y ys =>
      simp only [List.cons_append, List.cons.injEq] at h2
      obtain ⟨hay, hpost⟩ := h2
      subst hay
      exact Or.inr ⟨ys, by simpa using h1, hpost⟩

/-- Appending a name whose registered dependencies are all already listed
preserves the topological property. -/
theorem sortedOrder_append (r : ModuleRegistry) (ord : List String) (n : String)
    (hs : SortedOrder r ord)
    (hd : ∀ d ∈ r.depsOfName n, r.registered d → d ∈ ord) :
    SortedOrder r (ord ++ [n]) := by
  intro pre a post heq d hdep hreg
  rcases append_singleton_decomp ord pre post a n heq with ⟨hp, ha, _⟩ | ⟨post', hl, _⟩
  · subst hp
    subst ha
    exact hd d hdep hreg
  · exact hs pre a post' hl d hdep hreg

/-- Invariant of the traversal state: the emitted order is duplicate-free,
contains only registered names, is topologically sorted, and is disjoint
from the visiting stack. -/
def InvS (r : ModuleRegistry) (s : VisitState) : Prop :=
  s.order.Nodup ∧ (∀ x ∈ s.order, r.registered x) ∧ SortedOrder r s.order ∧
    (∀ x ∈ s.visiting, x ∉ s.order)

theorem visitFold_pres (r : ModuleRegistry)
    (next : VisitState → String → Except RegError VisitState)
    (Hp : ∀ s n s', InvS r s → next s n = .ok s' → InvS r s') :
    ∀ (l : List String) (s s' : VisitState), InvS r s →
      visitFold next s l = .ok s' → InvS r s' := by
  intro l
  induction l with
  | nil =>
    intro s s' hi h
    simp only [visitFold] at h
    cases h
    exact hi
  | cons x xs ih =>
    intro s s' hi h
    simp only [visitFold] at h
    cases hn : next s x with
    | error e => rw [hn] at h; cases h
    | ok s1 =>
      rw [hn] at h
      exact ih s1 s' (Hp s x s1 hi hn) h

theorem ModuleRegistry.visit_pres (r : ModuleRegistry) :
    ∀ (fuel : Nat) (s : VisitState) (n : String) (s' : VisitState), InvS r s →
      r.visit fuel s n = .ok s' → InvS r s' := by
  intro fuel
  induction fuel with
  | zero => intro s n s' _ h; simp [ModuleRegistry.visit] at h
  | succ fuel ih =>
    intro s n s' hi h
    unfold ModuleRegistry.visit at h
    by_cases h1 : n ∈ s.order
    · simp only [h1, if_true] at h
      cases h
      exact hi
    · by_cases h2 : n ∈ s.visiting
      · simp [h1, h2] at h
      · simp only [h1, h2, if_false] at h
        cases hl : r.lookup n with
        | none =>
          rw [hl] at h
          cases h
          exact hi
        | some entry =>
          rw [hl] at h
          dsimp only at h
          cases hf : visitFold (r.visit fuel) ⟨n :: s.visiting, s.order⟩
              entry.module.deps with
          | error e => rw [hf] at h; cases h
          | ok s2 =>
            rw [hf] at h
            cases h
            -- facts about the inner fold
            have hs1 : InvS r ⟨n :: s.visiting, s.order⟩ := by
              refine ⟨hi.1, hi.2.1, hi.2.2.1, ?_⟩
              intro x hx
              rcases List.mem_cons.mp hx with hx | hx
              · exact hx ▸ h1
              · exact hi.2.2.2 x hx
            have hi2 : InvS r s2 :=
              visitFold_pres r (r.visit fuel) (fun s n s' => ih s n s') _ _ _ hs1 hf
            obtain ⟨hv, dl, ho⟩ :=
              visitFold_frame (r.visit fuel) (r.visit_frame fuel) _ _ _ hf
            have hreg : r.registered n := by
              unfold ModuleRegistry.registered
              rw [hl]
              rfl
            have hnord : n ∉ s2.order := by
              intro hmem
              exact hi2.2.2.2 n (hv ▸ List.mem_cons_self n s.visiting) hmem
            have hdeps : ∀ d ∈ r.depsOfName n, r.registered d → d ∈ s2.order := by
              intro d hd hrd
              have hdeq : r.depsOfName n = entry.module.deps := by
                unfold ModuleRegistry.depsOfName
                rw [hl]
              exact visitFold_complete r (r.visit fuel) (r.visit_frame fuel)
                (r.visit_complete fuel) _ _ _ hf d (hdeq ▸ hd) hrd
            constructor
            · -- nodup of the extended order
              show (s2.order ++ [n]).Nodup
              rw [List.nodup_append]
              exact ⟨hi2.1, List.nodup_singleton n, by
                intro x hx hxn
                simp only [List.mem_singleton] at hxn
                exact hnord (hxn ▸ hx)⟩
            constructor
            · intro x hx
              rcases List.mem_append.mp hx with hx | hx
              · exact hi2.2.1 x hx
              · simp only [List.mem_singleton] at hx
                exact hx ▸ hreg
            constructor
            · exact sortedOrder_append r s2.order n hi2.2.2.1 hdeps
            · -- disjointness for the restored stack
              have hvv : s2.visiting.erase n = s.visiting := by
                rw [hv]
                exact List.erase_cons_head n s.visiting
              intro x hx
              dsimp only at hx
              rw [hvv] at hx
              show x ∉ s2.order ++ [n]
              have hxv : x ∈ s2.visiting := hv ▸ List.mem_cons_of_mem n hx
              intro hmem
              rcases List.mem_append.mp hmem with hm | hm
              · exact hi2.2.2.2 x hxv hm
              · simp only [List.mem_singleton] at hm
                exact h2 (hm ▸ hx)

/-- Precondition guaranteeing that the supplied fuel covers the remaining
possible nesting depth of `visit`. -/
def FuelPre (r : ModuleRegistry) (fuel : Nat) (s : VisitState) : Prop :=
  s.visiting.Nodup ∧ (∀ x ∈ s.visiting, x ∈ r.regNames) ∧
    r.regNames.length - s.visiting.length < fuel

theorem visitFold_nofuel (r : ModuleRegistry)
    (next : VisitState → String → Except RegError VisitState) (fuel : Nat)
    (Hn : ∀ s n, FuelPre r fuel s → next s n ≠ .error .fuelExhausted)
    (Hf : ∀ s n s', next s n = .ok s' →
      s'.visiting = s.visiting ∧ ∃ d, s'.order = s.order ++ d) :
    ∀ (l : List String) (s : VisitState), FuelPre r fuel s →
      visitFold next s l ≠ .error .fuelExhausted := by
  intro l
  induction l with
  | nil => intro s _ h; simp [visitFold] at h
  | cons x xs ih =>
    intro s hp h
    simp only [visitFold] at h
    cases hn : next s x with
    | error e =>
      rw [hn] at h
      cases h
      exact Hn s x hp hn
    | ok s1 =>
      rw [hn] at h
      obtain ⟨hv, _⟩ := Hf s x s1 hn
      have hp1 : FuelPre r fuel s1 := by
        refine ⟨?_, ?_, ?_⟩ <;> rw [hv]
        · exact hp.1
        · exact hp.2.1
        · exact hp.2.2
      exact ih s1 hp1 h

theorem ModuleRegistry.visit_nofuel (r : ModuleRegistry) :
    ∀ (fuel : Nat) (s : VisitState) (n : String), FuelPre r fuel s →
      r.visit fuel s n ≠ .error .fuelExhausted := by
  intro fuel
  induction fuel with
  | zero =>
    intro s n hp _
    exact absurd hp.2.2 (Nat.not_lt_zero _)
  | succ fuel ih =>
    intro s n hp heq
    unfold ModuleRegistry.visit at heq
    by_cases h1 : n ∈ s.order
    · simp [h1] at heq
    · by_cases h2 : n ∈ s.visiting
      · simp [h1, h2] at heq
      · simp only [h1, h2, if_false] at heq
        cases hl : r.lookup n with
        | none => rw [hl] at heq; cases heq
        | some entry =>
          rw [hl] at heq
          dsimp only at heq
          cases hf : visitFold (r.visit fuel) ⟨n :: s.visiting, s.order⟩
              entry.module.deps with
          | ok s2 => rw [hf] at heq; cases heq
          | error e =>
            rw [hf] at heq
            cases heq
            have hreg : n ∈ r.regNames := mem_keys_of_lookup_isSome (by
              show (List.lookup n r.modules).isSome = true
              have hh : List.lookup n r.modules = r.lookup n := rfl
              rw [hh, hl]
              rfl)
            have hcount : (n :: s.visiting).length ≤ r.regNames.length := by
              apply nodup_subset_length_le
              · exact List.nodup_cons.mpr ⟨h2, hp.1⟩
              · intro x hx
                rcases List.mem_cons.mp hx with hx | hx
                · exact hx ▸ hreg
                · exact hp.2.1 x hx
            have hp1 : FuelPre r fuel ⟨n :: s.visiting, s.order⟩ := by
              refine ⟨List.nodup_cons.mpr ⟨h2, hp.1⟩, ?_, ?_⟩
              · intro x hx
                rcases List.mem_cons.mp hx with hx | hx
                · exact hx ▸ hreg
                · exact hp.2.1 x hx
              · have := hp.2.2
                simp only [List.length_cons] at *
                omega
            exact visitFold_nofuel r (r.visit fuel) fuel ih (r.visit_frame fuel)
              entry.module.deps _ hp1 hf

/-- Resolution never runs out of fuel at the supplied bound: its only
possible error is `circular`. -/
theorem ModuleRegistry.resolve_err (r : ModuleRegistry)
    (e : RegError) (h : r.resolveDependencyOrder = .error e) :
    ∃ m, e = .circular m := by
  unfold ModuleRegistry.resolveDependencyOrder at h
  cases hf : visitFold (r.visit (r.modules.length + 1)) ⟨[], []⟩ r.regNames with
  | ok s2 => rw [hf] at h; cases h
  | error e1 =>
    rw [hf] at h
    have hee : e1 = e := by simpa [Except.map] using h
    subst hee
    have hfe := visitFold_err (r.visit (r.modules.length + 1))
      (r.visit_err (r.modules.length + 1)) r.regNames ⟨[], []⟩ e1 hf
    rcases hfe with hc | hc
    · exact hc
    · subst hc
      exfalso
      have hlen : r.regNames.length = r.modules.length := List.length_map _ _
      have hp0 : FuelPre r (r.modules.length + 1) ⟨[], []⟩ := by
        refine ⟨List.nodup_nil, by simp, ?_⟩
        simp [hlen]
      exact visitFold_nofuel r (r.visit (r.modules.length + 1)) (r.modules.length + 1)
        (r.visit_nofuel (r.modules.length + 1)) (r.visit_frame _)
        r.regNames ⟨[], []⟩ hp0 hf

/-- The visiting stack is a chain of registered names in which each entry
is a declared dependency of the one below it. -/
def ChainInv (r : ModuleRegistry) (v : List String) : Prop :=
  (∀ x ∈ v, r.registered x) ∧ List.Chain' (fun a b => a ∈ r.depsOfName b) v

/-- The visited name is a declared dependency of the top of the visiting
stack (or the stack is empty, for traversal roots). -/
def LinkTo (r : ModuleRegistry) (n : String) (v : List String) : Prop :=
  v = [] ∨ ∃ h t, v = h :: t ∧ n ∈ r.depsOfName h

/-- Walking the visiting stack yields a dependency path from any member to
the top. -/
theorem chain_path (r : ModuleRegistry) :
    ∀ (h : String) (t : List String), ChainInv r (h :: t) →
      ∀ m ∈ h :: t, Relation.ReflTransGen (Dep r) m h := by
  intro h t
  induction t generalizing h with
  | nil =>
    intro _ m hm
    simp only [List.mem_singleton] at hm
    exact hm ▸ Relation.ReflTransGen.refl
  | cons h' t' ih =>
    intro hc m hm
    have hrel : h ∈ r.depsOfName h' := (List.chain'_cons.mp hc.2).1
    have hctail : ChainInv r (h' :: t') := by
      refine ⟨?_, (List.chain'_cons.mp hc.2).2⟩
      intro x hx
      exact hc.1 x (List.mem_cons_of_mem h hx)
    rcases List.mem_cons.mp hm with hm | hm
    · exact hm ▸ Relation.ReflTransGen.refl
    · have hmh' : Relation.ReflTransGen (Dep r) m h' := ih h' hctail m hm
      have hstep : Dep r h' h :=
        ⟨hc.1 h' (List.mem_cons_of_mem h (List.mem_cons_self h' t')),
          hc.1 h (List.mem_cons_self h (h' :: t')), hrel⟩
      exact Relation.ReflTransGen.tail hmh' hstep

theorem visitFold_cyc (r : ModuleRegistry)
    (next : VisitState → String → Except RegError VisitState)
    (Hn : ∀ s n m, ChainInv r s.visiting → LinkTo r n s.visiting →
      next s n = .error (.circular m) → Relation.TransGen (Dep r) m m)
    (Hf : ∀ s n s', next s n = .ok s' →
      s'.visiting = s.visiting ∧ ∃ d, s'.order = s.order ++ d) :
    ∀ (l : List String) (s : VisitState) (m : String), ChainInv r s.visiting →
      (∀ d ∈ l, LinkTo r d s.visiting) →
      visitFold next s l = .error (.circular m) →
      Relation.TransGen (Dep r) m m := by
  intro l
  induction l with
  | nil => intro s m _ _ h; simp [visitFold] at h
  | cons x xs ih =>
    intro s m hc hlk h
    simp only [visitFold] at h
    cases hn : next s x with
    | error e =>
      rw [hn] at h
      cases h
      exact Hn s x m hc (hlk x (List.mem_cons_self x xs)) hn
    | ok s1 =>
      rw [hn] at h
      obtain ⟨hv, _⟩ := Hf s x s1 hn
      refine ih s1 m ?_ ?_ h
      · rw [hv]; exact hc
      · intro d hd
        rw [hv]
        exact hlk d (List.mem_cons_of_mem x hd)

theorem ModuleRegistry.visit_cyc (r : ModuleRegistry) :
    ∀ (fuel : Nat) (s : VisitState) (n m : String), ChainInv r s.visiting →
      LinkTo r n s.visiting → r.visit fuel s n = .error (.circular m) →
      Relation.TransGen (Dep r) m m := by
  intro fuel
  induction fuel with
  | zero => intro s n m _ _ h; simp [ModuleRegistry.visit] at h
  | succ fuel ih =>
    intro s n m hc hlk h
    unfold ModuleRegistry.visit at h
    by_cases h1 : n ∈ s.order
    · simp [h1] at h
    · by_cases h2 : n ∈ s.visiting
      · simp only [h1, h2, if_false, if_true, Except.error.injEq,
          RegError.circular.injEq] at h
        subst h
        -- the revisited name closes a cycle through the stack
        rcases hlk with hlk | ⟨hd, t, hvt, hdep⟩
        · rw [hlk] at h2
          simp at h2
        · have hpath : Relation.ReflTransGen (Dep r) n hd :=
            chain_path r hd t (hvt ▸ hc) n (hvt ▸ h2)
          have hstep : Dep r hd n := by
            refine ⟨?_, ?_, hdep⟩
            · exact hc.1 hd (hvt ▸ List.mem_cons_self hd t)
            · exact hc.1 n h2
          exact Relation.TransGen.tail' hpath hstep
      · simp only [h1, h2, if_false] at h
        cases hl : r.lookup n with
        | none => rw [hl] at h; cases h
        | some entry =>
          rw [hl] at h
          dsimp only at h
          cases hf : visitFold (r.visit fuel) ⟨n :: s.visiting, s.order⟩
              entry.module.deps with
          | ok s2 => rw [hf] at h; cases h
          | error e =>
            rw [hf] at h
            cases h
            have hregn : r.registered n := by
              unfold ModuleRegistry.registered
              rw [hl]
              rfl
            have hdeq : r.depsOfName n = entry.module.deps := by
              unfold ModuleRegistry.depsOfName
              rw [hl]
            have hc1 : ChainInv r (n :: s.visiting) := by
              refine ⟨?_, ?_⟩
              · intro x hx
                rcases List.mem_cons.mp hx with hx | hx
                · exact hx ▸ hregn
                · exact hc.1 x hx
              · rw [List.chain'_cons']
                refine ⟨?_, hc.2⟩
                intro y hy
                rcases hlk with hlk | ⟨hd, t, hvt, hdep⟩
                · rw [hlk] at hy; simp at hy
                · rw [hvt] at hy
                  simp only [List.head?_cons, Option.mem_def, Option.some.injEq] at hy
                  exact hy ▸ hdep
            refine visitFold_cyc r (r.visit fuel) ih (r.visit_frame fuel)
              entry.module.deps _ m hc1 ?_ hf
            intro d hd
            exact Or.inr ⟨n, s.visiting, rfl, hdeq ▸ hd⟩

/-- A `circular` error from the resolver names a component that genuinely
lies on a dependency cycle of the restricted graph. -/
theorem ModuleRegistry.resolve_cyc (r : ModuleRegistry) (m : String)
    (h : r.resolveDependencyOrder = .error (.circular m)) :
    Relation.TransGen (Dep r) m m := by
  unfold ModuleRegistry.resolveDependencyOrder at h
  cases hf : visitFold (r.visit (r.modules.length + 1)) ⟨[], []⟩ r.regNames with
  | ok s2 => rw [hf] at h; simp [Except.map] at h
  | error e1 =>
    rw [hf] at h
    have hee : e1 = .circular m := by simpa [Except.map] using h
    subst hee
    refine visitFold_cyc r (r.visit (r.modules.length + 1))
      (r.visit_cyc (r.modules.length + 1)) (r.visit_frame _)
      r.regNames ⟨[], []⟩ m ?_ ?_ hf
    · exact ⟨by simp, List.chain'_nil⟩
    · intro d _
      exact Or.inl rfl

/-- A successful resolution emits a permutation of the registered names
that is topologically sorted. -/
theorem ModuleRegistry.resolve_ok (r : ModuleRegistry) (hnd : r.regNames.Nodup)
    (ord : List String) (h : r.resolveDependencyOrder = .ok ord) :
    ord.Perm r.regNames ∧ SortedOrder r ord := by
  unfold ModuleRegistry.resolveDependencyOrder at h
  cases hf : visitFold (r.visit (r.modules.length + 1)) ⟨[], []⟩ r.regNames with
  | error e1 => rw [hf] at h; simp [Except.map] at h
  | ok s2 =>
    rw [hf] at h
    have hord : s2.order = ord := by simpa [Except.map] using h
    have hinit : InvS r ⟨[], []⟩ := by
      refine ⟨List.nodup_nil, by simp, ?_, by simp⟩
      intro pre a post heq
      exact absurd heq.symm (by simp)
    have hi2 : InvS r s2 := visitFold_pres r (r.visit (r.modules.length + 1))
      (fun s n s' => r.visit_pres (r.modules.length + 1) s n s')
      r.regNames ⟨[], []⟩ s2 hinit hf
    have hcomp : ∀ x ∈ r.regNames, x ∈ s2.order := by
      intro x hx
      exact visitFold_complete r (r.visit (r.modules.length + 1))
        (r.visit_frame _) (r.visit_complete _) r.regNames ⟨[], []⟩ s2 hf x hx
        (lookup_isSome_of_mem_keys hx)
    constructor
    · rw [← hord]
      refine (List.perm_ext_iff_of_nodup hi2.1 hnd).mpr ?_
      intro a
      constructor
      · intro ha
        exact (r.registered_iff_mem_regNames a).mp (hi2.2.1 a ha)
      · intro ha
        exact hcomp a ha
    · rw [← hord]
      exact hi2.2.2.1

/-- A transitive dependency chain always starts with a single edge. -/
theorem transGen_exists_first {α : Type} {R : α → α → Prop} {a b : α}
    (h : Relation.TransGen R a b) : ∃ c, R a c := by
  induction h with
  | single h => exact ⟨_, h⟩
  | tail _ _ ih => exact ih

/-- A topologically sorted permutation of the registered names forces the
restricted dependency graph to be acyclic. -/
theorem sorted_perm_acyclic (r : ModuleRegistry) (hnd : r.regNames.Nodup)
    (ord : List String) (hperm : ord.Perm r.regNames) (hs : SortedOrder r ord) :
    Acyclic r := by
  have hnodup : ord.Nodup := hperm.nodup_iff.mpr hnd
  have hstep : ∀ a b, Dep r a b → ord.indexOf b < ord.indexOf a := by
    intro a b hd
    have ha : a ∈ ord := hperm.mem_iff.mpr ((r.registered_iff_mem_regNames a).mp hd.1)
    obtain ⟨pre, post, hdecomp⟩ := List.append_of_mem ha
    have hb : b ∈ pre := hs pre a post hdecomp b hd.2.2 hd.2.1
    have hnotpre : a ∉ pre := by
      intro hmem
      rw [hdecomp] at hnodup
      rcases List.nodup_append.mp hnodup with ⟨_, _, hdisj⟩
      exact hdisj hmem (List.mem_cons_self a post)
    have hidxb : ord.indexOf b < pre.length := by
      rw [hdecomp, List.indexOf_append_of_mem hb]
      exact List.indexOf_lt_length.mpr hb
    have hidxa : ord.indexOf a = pre.length := by
      rw [hdecomp, List.indexOf_append_of_not_mem hnotpre, List.indexOf_cons_self]
      omega
    omega
  have htrans : ∀ a b, Relation.TransGen (Dep r) a b →
      ord.indexOf b < ord.indexOf a := by
    intro a b h
    induction h with
    | single h => exact hstep _ _ h
    | tail _ h2 ih => exact lt_trans (hstep _ _ h2) ih
  intro n hn
  exact lt_irrefl _ (htrans n n hn)

/-- C1: for every registry with duplicate-free keys whose dependency
graph restricted to registered components is acyclic,
`resolveOrder` succeeds and returns a permutation of the registered names
in which every registered dependency of a component appears strictly
before the component. -/
theorem claim_c1 : ∀ r : ModuleRegistry, r.regNames.Nodup → Acyclic r →
    ∃ ord, r.resolveDependencyOrder = .ok ord ∧ ord.Perm r.regNames ∧
      SortedOrder r ord := by
  intro r hnd hacyc
  cases hres : r.resolveDependencyOrder with
  | ok ord =>
    obtain ⟨hperm, hsort⟩ := r.resolve_ok hnd ord hres
    exact ⟨ord, rfl, hperm, hsort⟩
  | error e =>
    exfalso
    obtain ⟨m, hm⟩ := r.resolve_err e hres
    subst hm
    exact hacyc m (r.resolve_cyc m hres)

/-- C2: for every registry with duplicate-free keys whose restricted
dependency graph contains a cycle, `resolveOrder` fails with the
CircularDependencyError throw site naming a component that lies on a
cycle (it never returns an order), and `initializeAll` therefore fails
with the same error, changing nothing and invoking no callback. -/
theorem claim_c2 : ∀ r : ModuleRegistry, r.regNames.Nodup →
    (∃ n, Relation.TransGen (Dep r) n n) →
    ∃ m, r.resolveDependencyOrder = .error (.circular m) ∧
      Relation.TransGen (Dep r) m m ∧
      r.initAll = ⟨.error (.circular m), r, []⟩ := by
  intro r hnd hcyc
  cases hres : r.resolveDependencyOrder with
  | ok ord =>
    exfalso
    obtain ⟨hperm, hsort⟩ := r.resolve_ok hnd ord hres
    obtain ⟨n, hn⟩ := hcyc
    exact sorted_perm_acyclic r hnd ord hperm hsort n hn
  | error e =>
    obtain ⟨m, hm⟩ := r.resolve_err e hres
    subst hm
    refine ⟨m, rfl, r.resolve_cyc m hres, ?_⟩
    unfold ModuleRegistry.initAll
    rw [hres]

/-- Helper for the C1 witness: the two-module registry A, B (B depends on
A) has exactly the edge B→A. -/
theorem regAB_edges : ∀ a b, Dep regAB a b → a = "B" ∧ b = "A" := by
  intro a b hd
  obtain ⟨h1, h2, h3⟩ := hd
  have ha : a ∈ regAB.regNames := (regAB.registered_iff_mem_regNames a).mp h1
  have hnames : regAB.regNames = ["A", "B"] := by decide
  rw [hnames] at ha
  rcases List.mem_cons.mp ha with ha | ha
  · subst ha
    have : regAB.depsOfName "A" = [] := by decide
    rw [this] at h3
    simp at h3
  · have ha : a = "B" := by simpa using ha
    subst ha
    have : regAB.depsOfName "B" = ["A"] := by decide
    rw [this] at h3
    exact ⟨rfl, by simpa using h3⟩

/-- Helper for the C1 witness: the two-module registry is acyclic. -/
theorem regAB_acyclic : Acyclic regAB := by
  intro n hn
  obtain ⟨c, hc⟩ := transGen_exists_first hn
  have hnB : n = "B" := (regAB_edges n c hc).1
  cases hn with
  | single h =>
    obtain ⟨h1, h2⟩ := regAB_edges n n h
    exact absurd (h1.symm.trans h2) (by decide)
  | tail _ h2 =>
    have hnA : n = "A" := (regAB_edges _ n h2).2
    exact absurd (hnB.symm.trans hnA) (by decide)

theorem claim_c1_witness :
    ∃ ord, regAB.resolveDependencyOrder = .ok ord ∧ ord.Perm regAB.regNames ∧
      SortedOrder regAB ord :=
  claim_c1 regAB (by decide) regAB_acyclic

/-- Helper for the C2 witness: the registry with A→B→A has a cycle
through A. -/
theorem regCycle_cyc : Relation.TransGen (Dep regCycle) "A" "A" := by
  have dep1 : Dep regCycle "A" "B" := ⟨by decide, by decide, by decide⟩
  have dep2 : Dep regCycle "B" "A" := ⟨by decide, by decide, by decide⟩
  exact Relation.TransGen.head dep1 (Relation.TransGen.single dep2)

theorem claim_c2_witness :
    ∃ m, regCycle.resolveDependencyOrder = .error (.circular m) ∧
      Relation.TransGen (Dep regCycle) m m ∧
      regCycle.initAll = ⟨.error (.circular m), regCycle, []⟩ :=
  claim_c2 regCycle (by decide) ⟨"A", regCycle_cyc⟩

/-- C9: a registered, UNINITIALIZED component declaring a dependency name
that is not registered fails `initialize` with the MissingDependencyError
throw site listing the missing names, leaving the registry unchanged
(state still UNINITIALIZED) and invoking no callback — even though the
resolver ignores edges to unregistered names (a successful resolution
lists registered names only, so an unregistered dependency never appears
in the order). -/
theorem claim_c9 :
    (∀ (r : ModuleRegistry) (name : String) (entry : ModuleEntry),
      r.lookup name = some entry →
      entry.state = ModuleState.uninitialized →
      r.checkDependencies entry.module ≠ [] →
      r.initModule name =
        ⟨.error (.missingDeps name (r.checkDependencies entry.module)), r, []⟩) ∧
    (∀ (r : ModuleRegistry) (ord : List String),
      r.resolveDependencyOrder = .ok ord → ∀ x ∈ ord, r.registered x) := by
  constructor
  · exact fun r name entry hl hs hm =>
      ModuleRegistry.initModule_missing r name entry hl hs hm
  · intro r ord h x hx
    unfold ModuleRegistry.resolveDependencyOrder at h
    cases hf : visitFold (r.visit (r.modules.length + 1)) ⟨[], []⟩ r.regNames with
    | error e1 => rw [hf] at h; simp [Except.map] at h
    | ok s2 =>
      rw [hf] at h
      have hord : s2.order = ord := by simpa [Except.map] using h
      have hinit : InvS r ⟨[], []⟩ := by
        refine ⟨List.nodup_nil, by simp, ?_, by simp⟩
        intro pre a post heq
        exact absurd heq.symm (by simp)
      have hi2 : InvS r s2 := visitFold_pres r (r.visit (r.modules.length + 1))
        (fun s n s' => r.visit_pres (r.modules.length + 1) s n s')
        r.regNames ⟨[], []⟩ s2 hinit hf
      exact hi2.2.1 x (hord ▸ hx)

/-- Registry with a single component D depending on the never-registered
name X. -/
def regD : ModuleRegistry :=
  getOk (ModuleRegistry.empty.register ⟨"D", "1.0.0", some ["X"], none, none, none, none⟩)

theorem claim_c9_witness :
    regD.initModule "D" = ⟨.error (.missingDeps "D" ["X"]), regD, []⟩ := by
  have h := claim_c9.1 regD "D"
    ⟨⟨"D", "1.0.0", some ["X"], none, none, none, none⟩, ModuleState.uninitialized, none⟩
    (by decide) (by decide) (by decide)
  exact h

theorem claim_c3_witness :
    (scenarioRegAB "A" "B" "1.0.0" "2.0.0").initAll.events =
      [.initCall "A", .initCall "B"] ∧
    ((((scenarioRegAB "A" "B" "1.0.0" "2.0.0").initAll.registry).startAll).registry).stopAll.events =
      [.stopCall "B", .stopCall "A"] ∧
    (scenarioRegBA "A" "B" "1.0.0" "2.0.0").initAll.events =
      [.initCall "A", .initCall "B"] ∧
    ((((scenarioRegBA "A" "B" "1.0.0" "2.0.0").initAll.registry).startAll).registry).stopAll.events =
      [.stopCall "B", .stopCall "A"] :=
  claim_c3 "A" "B" "1.0.0" "2.0.0" (by decide)

end Reg
